import Mathlib

set_option maxHeartbeats 1000000

-- Verification of photo_exif_dates.py: a shallow embedding of its date
-- parsing, EXIF tag resolution, watermark layout, color parsing, file
-- discovery and run-level counting, with theorems about each.

namespace PhotoExifDates

-- Characters stripped by Python str.strip() with no argument (the
-- whitespace characters in the Latin-1 range; str.strip removes them
-- from both ends only).
def pyIsSpace (c : Char) : Bool :=
  c == ' ' || c == '\t' || c == '\n' || c == '\r' || c == '\x0b' || c == '\x0c' ||
  c == '\x1c' || c == '\x1d' || c == '\x1e' || c == '\x1f' || c == '\x85' || c == '\xa0'

-- Python str.strip(chars): remove characters satisfying p from both ends
-- of the string; interior characters are untouched.
def stripEnds (p : Char → Bool) (cs : List Char) : List Char :=
  ((cs.dropWhile p).reverse.dropWhile p).reverse

-- Line 67 of the source: `(dt_str or "").strip().strip("\x00")` —
-- surrounding whitespace is removed first, then surrounding NUL bytes.
def cleanChars (s : String) : List Char :=
  stripEnds (fun c => c == '\x00') (stripEnds pyIsSpace s.toList)

-- A parsed datetime.datetime value (only fields the program touches).
structure PDateTime where
  year : Nat
  month : Nat
  day : Nat
  hour : Nat
  minute : Nat
  second : Nat
deriving DecidableEq, Repr

-- A calendar date (the CandidateDate of the spec: time-of-day dropped).
structure PDate where
  year : Nat
  month : Nat
  day : Nat
deriving DecidableEq, Repr

def PDateTime.toDate (dt : PDateTime) : PDate := ⟨dt.year, dt.month, dt.day⟩

-- Maximal leading run of ASCII digits, plus the rest of the string.
def takeDigits : List Char → List Char × List Char
  | [] => ([], [])
  | c :: cs =>
    if c.isDigit then (c :: (takeDigits cs).1, (takeDigits cs).2)
    else ([], c :: cs)

def digitsToNat (cs : List Char) : Nat :=
  cs.foldl (fun a c => a * 10 + (c.toNat - 48)) 0

-- CPython strptime directive %Y compiles to the regex \d\d\d\d: exactly
-- four digits.
def lenIs4 (n : Nat) : Bool := n == 4

-- The two-digit directives (%m %d %H %M %S) compile to alternations that
-- accept exactly the digit strings of length one or two in the directive's
-- range; since a non-digit (or end of input) always follows a field in the
-- six formats used here, a successful match consumes the maximal digit run.
def lenIs12 (n : Nat) : Bool := n == 1 || n == 2

-- Match one numeric field: the maximal digit run, constrained in length.
def numField (p : Nat → Bool) (cs : List Char) : Option (Nat × List Char) :=
  if p (takeDigits cs).1.length then
    some (digitsToNat (takeDigits cs).1, (takeDigits cs).2)
  else none

-- Match one literal separator character.
def litChar (c : Char) : List Char → Option (List Char)
  | x :: rest => if x == c then some rest else none
  | [] => none

-- A space in a strptime format string matches one or more whitespace
-- characters of the input.
def space1 : List Char → Option (List Char)
  | x :: rest => if pyIsSpace x then some (rest.dropWhile pyIsSpace) else none
  | [] => none

-- The date part of a format: %Y sep %m sep %d, returning year, month, day
-- and the unconsumed remainder.
def parseDatePart (sep : Char) (cs : List Char) : Option (Nat × Nat × Nat × List Char) :=
  (numField lenIs4 cs).bind fun y =>
  (litChar sep y.2).bind fun r1 =>
  (numField lenIs12 r1).bind fun m =>
  (litChar sep m.2).bind fun r2 =>
  (numField lenIs12 r2).bind fun d =>
  some (y.1, m.1, d.1, d.2)

-- The time part " %H:%M:%S", which must consume the whole remainder.
def parseTimePart (cs : List Char) : Option (Nat × Nat × Nat) :=
  (space1 cs).bind fun r0 =>
  (numField lenIs12 r0).bind fun h =>
  (litChar ':' h.2).bind fun r1 =>
  (numField lenIs12 r1).bind fun m =>
  (litChar ':' m.2).bind fun r2 =>
  (numField lenIs12 r2).bind fun s =>
  if s.2 = [] then some (h.1, m.1, s.1) else none

def isLeapYear (y : Nat) : Bool := (y % 4 == 0 && y % 100 != 0) || y % 400 == 0

def daysInMonth (y m : Nat) : Nat :=
  if m == 2 then (if isLeapYear y then 29 else 28)
  else if m == 4 || m == 6 || m == 9 || m == 11 then 30
  else 31

-- Validity enforced by the datetime.datetime constructor (together with
-- the regex-level field ranges).  A range failure raises ValueError just
-- like a regex mismatch, and the caller catches ValueError and moves to
-- the next format, so folding both checks into the matcher is faithful.
def validDate (y m d : Nat) : Prop :=
  1 ≤ y ∧ 1 ≤ m ∧ m ≤ 12 ∧ 1 ≤ d ∧ d ≤ daysInMonth y m

instance (y m d : Nat) : Decidable (validDate y m d) := by
  unfold validDate; infer_instance

def validTime (h m s : Nat) : Prop := h ≤ 23 ∧ m ≤ 59 ∧ s ≤ 59

instance (h m s : Nat) : Decidable (validTime h m s) := by
  unfold validTime; infer_instance

-- datetime.strptime(s, fmt) for the formats the program uses: fmt is
-- determined by the date separator and whether a " %H:%M:%S" part follows.
-- A date-only format leaves time 00:00:00, as strptime does.
def matchFmt (sep : Char) (withTime : Bool) (cs : List Char) : Option PDateTime :=
  (parseDatePart sep cs).bind fun q =>
    if withTime then
      (parseTimePart q.2.2.2).bind fun t =>
        if validDate q.1 q.2.1 q.2.2.1 ∧ validTime t.1 t.2.1 t.2.2 then
          some ⟨q.1, q.2.1, q.2.2.1, t.1, t.2.1, t.2.2⟩
        else none
    else
      if q.2.2.2 = [] ∧ validDate q.1 q.2.1 q.2.2.1 then
        some ⟨q.1, q.2.1, q.2.2.1, 0, 0, 0⟩
      else none

-- The six formats of lines 71-78, in source order.
def FORMATS6 : List (Char × Bool) :=
  [(':', true), ('-', true), ('/', true), (':', false), ('-', false), ('/', false)]

def tryFmtList : List (Char × Bool) → List Char → Option PDateTime
  | [], _ => none
  | f :: fs, cs =>
    match matchFmt f.1 f.2 cs with
    | some dt => some dt
    | none => tryFmtList fs cs

def tryFormats6 (cs : List Char) : Option PDateTime := tryFmtList FORMATS6 cs

-- The three date-only salvage formats of line 86, in source order.
def SALVAGE_SEPS : List Char := ['-', '/', ':']

def tryDateFmts : List Char → List Char → Option PDateTime
  | [], _ => none
  | f :: fs, cs =>
    match matchFmt f false cs with
    | some dt => some dt
    | none => tryDateFmts fs cs

def colon2dash (c : Char) : Char := if c == ':' then '-' else c

-- Lines 84-90: candidates are s[:10] and s.replace(":", "-")[:10], tried
-- candidate-major against the three salvage formats.
def trySalvage (cs : List Char) : Option PDateTime :=
  match tryDateFmts SALVAGE_SEPS (cs.take 10) with
  | some dt => some dt
  | none => tryDateFmts SALVAGE_SEPS ((cs.map colon2dash).take 10)

-- _parse_exif_datetime (lines 66-92).
def parse_exif_datetime (dt_str : String) : Option PDateTime :=
  if (cleanChars dt_str).isEmpty then none
  else
    match tryFormats6 (cleanChars dt_str) with
    | some dt => some dt
    | none => trySalvage (cleanChars dt_str)

-- The DateParser component of the spec: the resolved calendar date with
-- time-of-day discarded.
def dateParse (s : String) : Option PDate := (parse_exif_datetime s).map PDateTime.toDate

-- strftime("%Y-%m-%d") of line 58: month and day zero-padded to 2 digits.
def pad2 (n : Nat) : String := if n < 10 then "0" ++ toString n else toString n

def formatDate (dt : PDateTime) : String :=
  toString dt.year ++ "-" ++ pad2 dt.month ++ "-" ++ pad2 dt.day

-- Lines 18-22: DateTimeOriginal (36867), DateTimeDigitized (36868),
-- DateTime (306), in priority order.
def DATETIME_TAGS : List Nat := [36867, 36868, 306]

-- The tag loop of lines 44-58.  EXIF values are modelled post-decode as
-- strings: `value.decode("utf-8", errors="ignore")` never raises, and a
-- byte value whose decode is empty fails the parse exactly as an empty
-- string skips the falsiness check, so the observable result is the same.
def resolveFromTags : List Nat → (Nat → Option String) → Option PDateTime
  | [], _ => none
  | t :: ts, exif =>
    match exif t with
    | none => resolveFromTags ts exif
    | some v =>
      if v = "" then resolveFromTags ts exif
      else
        match parse_exif_datetime v with
        | some dt => some dt
        | none => resolveFromTags ts exif

-- extract_date_from_exif given a successfully opened metadata block (the
-- surrounding try/except and image open are environment effects; a failure
-- there yields None, modelled at the run level by the exifDate oracle).
def extract_date_from_exif_data (exif : Nat → Option String) : Option String :=
  (resolveFromTags DATETIME_TAGS exif).map formatDate

-- ---------------- Watermark layout ---------------- --

def POS_CHOICES : List String :=
  ["top-left", "top-center", "top-right",
   "center-left", "center", "center-right",
   "bottom-left", "bottom-center", "bottom-right"]

-- _calc_position (lines 164-184).  Python // on int is floor division,
-- hence Int.fdiv.
def calc_position (pos : String) (img_w img_h text_w text_h margin : Int) : Int × Int :=
  if pos = "top-left" then (margin, margin)
  else if pos = "top-center" then ((img_w - text_w).fdiv 2, margin)
  else if pos = "top-right" then (img_w - text_w - margin, margin)
  else if pos = "center-left" then (margin, (img_h - text_h).fdiv 2)
  else if pos = "center" then ((img_w - text_w).fdiv 2, (img_h - text_h).fdiv 2)
  else if pos = "center-right" then (img_w - text_w - margin, (img_h - text_h).fdiv 2)
  else if pos = "bottom-left" then (margin, img_h - text_h - margin)
  else if pos = "bottom-center" then ((img_w - text_w).fdiv 2, img_h - text_h - margin)
  else if pos = "bottom-right" then (img_w - text_w - margin, img_h - text_h - margin)
  else (img_w - text_w - margin, img_h - text_h - margin)

-- ---------------- Color parsing ---------------- --

-- Python str.split(sep) with a one-character separator: empty pieces kept.
def splitOnChar (sep : Char) : List Char → List (List Char)
  | [] => [[]]
  | x :: xs =>
    let r := splitOnChar sep xs
    if x == sep then [] :: r
    else
      match r with
      | [] => [[x]]
      | y :: ys => (x :: y) :: ys

-- int(x.strip()) for a decimal literal: optional sign, then a nonempty
-- run of ASCII digits; anything else raises ValueError (modelled none).
def pyInt (cs : List Char) : Option Int :=
  match stripEnds pyIsSpace cs with
  | '-' :: ds => if ds ≠ [] ∧ ds.all Char.isDigit then some (-(digitsToNat ds : Int)) else none
  | '+' :: ds => if ds ≠ [] ∧ ds.all Char.isDigit then some ((digitsToNat ds : Int)) else none
  | ds => if ds ≠ [] ∧ ds.all Char.isDigit then some ((digitsToNat ds : Int)) else none

-- List-level traversal of the comprehension [int(x.strip()) for x in ...]:
-- the first ValueError aborts the whole comprehension.
def mapOpt (f : α → Option β) : List α → Option (List β)
  | [] => some []
  | x :: xs =>
    match f x with
    | none => none
    | some y => (mapOpt f xs).map (y :: ·)

-- _parse_color (lines 149-161).  ImageColor.getrgb belongs to the imaging
-- collaborator and is passed in as an oracle over the stripped text: some
-- rgb when it parses the string (hex or named color), none when it raises
-- ValueError.
def parse_color (getrgb : List Char → Option (Int × Int × Int)) (color_str : String) :
    Int × Int × Int :=
  let s := stripEnds pyIsSpace color_str.toList
  if s.contains ',' then
    match mapOpt pyInt (splitOnChar ',' s) with
    | none => (255, 255, 255)
    | some parts =>
      match parts with
      | a :: b :: c :: _ => (a, b, c)
      | _ =>
        match getrgb s with
        | some rgb => rgb
        | none => (255, 255, 255)
  else
    match getrgb s with
    | some rgb => rgb
    | none => (255, 255, 255)

-- ---------------- File discovery and the main loop ---------------- --

def SUPPORTED_EXTS : List String :=
  [".jpg", ".jpeg", ".tif", ".tiff", ".png", ".webp", ".bmp"]

-- Characters of the basename: everything after the last path separator.
def baseNameChars (cs : List Char) : List Char :=
  (cs.reverse.takeWhile (fun c => !(c == '/'))).reverse

-- os.path.splitext extension: from the last dot of the basename, ignoring
-- any leading dots of the basename.
def splitextExt (p : String) : String :=
  let core := (baseNameChars p.toList).dropWhile (fun c => c == '.')
  if core.contains '.' then
    String.mk ('.' :: (core.reverse.takeWhile (fun c => !(c == '.'))).reverse)
  else ""

def lowerExt (p : String) : String :=
  String.mk ((splitextExt p).toList.map Char.toLower)

def pathJoin (a b : String) : String := a ++ "/" ++ b

-- Environment oracle standing for the filesystem and per-file imaging
-- effects of one run: predicates answer os.path.isfile / os.path.isdir /
-- os.path.exists of the mapped output path, walk lists (dirpath,
-- filenames) pairs as os.walk does (dirnames are unused by the source),
-- exifDate is the result of extract_date_from_exif on a path, and
-- annotateOk whether annotate_image returns True for it.
structure Env where
  isFile : String → Bool
  isDir : String → Bool
  listdir : String → List String
  walk : String → List (String × List String)
  exifDate : String → Option String
  outExists : String → Bool
  annotateOk : String → Bool

-- find_images (lines 97-120); FileNotFoundError becomes Except.error.
def find_images (env : Env) (path : String) (recursive : Bool) : Except String (List String) :=
  if env.isFile path then
    .ok (if lowerExt path ∈ SUPPORTED_EXTS then [path] else [])
  else if env.isDir path then
    if recursive then
      .ok ((env.walk path).foldl (fun acc rn =>
        acc ++ (rn.2.filter (fun name => lowerExt name ∈ SUPPORTED_EXTS)).map (pathJoin rn.1)) [])
    else
      .ok ((env.listdir path).filterMap (fun name =>
        let fp := pathJoin path name
        if env.isFile fp ∧ lowerExt name ∈ SUPPORTED_EXTS then some fp else none))
  else .error ("Path not found: " ++ path)

-- The four run-level counters of lines 305-308.
structure Counters where
  processed : Nat
  skippedNoDate : Nat
  skippedExists : Nat
  failed : Nat
deriving DecidableEq, Repr

def Counters.zero : Counters := ⟨0, 0, 0, 0⟩

def Counters.total (c : Counters) : Nat :=
  c.processed + c.skippedNoDate + c.skippedExists + c.failed

-- One iteration of the per-file loop (lines 310-339).
def processFile (env : Env) (overwrite : Bool) (c : Counters) (fp : String) : Counters :=
  match env.exifDate fp with
  | none => { c with skippedNoDate := c.skippedNoDate + 1 }
  | some _ =>
    if ¬overwrite ∧ env.outExists fp then
      { c with skippedExists := c.skippedExists + 1 }
    else if env.annotateOk fp then
      { c with processed := c.processed + 1 }
    else
      { c with failed := c.failed + 1 }

-- main (lines 288-345): exit code and final counters.  FileNotFoundError
-- from find_images prints and exits 1; an empty discovery exits 0; the
-- loop never exits early and main then returns normally, exit 0.
def runMain (env : Env) (path : String) (recursive overwrite : Bool) : Nat × Counters :=
  match find_images env path recursive with
  | .error _ => (1, Counters.zero)
  | .ok files =>
    if files.isEmpty then (0, Counters.zero)
    else (0, files.foldl (processFile env overwrite) Counters.zero)

-- ---------------- Structural lemmas about the parser ---------------- --

theorem takeDigits_append (cs : List Char) : (takeDigits cs).1 ++ (takeDigits cs).2 = cs := by
  induction cs with
  | nil => rfl
  | cons c cs ih =>
    simp only [takeDigits]
    split
    · simpa using ih
    · rfl

theorem takeDigits_digits (cs : List Char) : ∀ c ∈ (takeDigits cs).1, c.isDigit = true := by
  induction cs with
  | nil => simp [takeDigits]
  | cons c cs ih =>
    simp only [takeDigits]
    split
    next h =>
      intro x hx
      rcases List.mem_cons.mp hx with rfl | hx
      · exact h
      · exact ih x hx
    next h =>
      intro x hx
      simp at hx

theorem numField_some {p : Nat → Bool} {cs : List Char} {v : Nat} {rest : List Char}
    (h : numField p cs = some (v, rest)) :
    ∃ run, cs = run ++ rest ∧ (∀ c ∈ run, c.isDigit = true) ∧ p run.length = true := by
  unfold numField at h
  split at h
  next hp =>
    injection h with h'
    have h2 : (takeDigits cs).2 = rest := congrArg Prod.snd h'
    refine ⟨(takeDigits cs).1, ?_, takeDigits_digits cs, hp⟩
    rw [← h2, takeDigits_append]
  next => cases h

theorem litChar_some {c : Char} {cs rest : List Char} (h : litChar c cs = some rest) :
    cs = c :: rest := by
  cases cs with
  | nil => cases h
  | cons x xs =>
    simp only [litChar] at h
    split at h
    next hx =>
      injection h with h'
      rw [eq_of_beq hx, h']
    next => cases h

theorem space1_some {cs rest : List Char} (h : space1 cs = some rest) :
    ∃ pre, pre ≠ [] ∧ cs = pre ++ rest := by
  cases cs with
  | nil => cases h
  | cons x xs =>
    simp only [space1] at h
    split at h
    next hx =>
      injection h with h'
      refine ⟨x :: xs.takeWhile pyIsSpace, by simp, ?_⟩
      rw [← h']
      simp [List.takeWhile_append_dropWhile]
    next => cases h

theorem lenIs4_pos {n : Nat} (h : lenIs4 n = true) : 0 < n := by
  simp [lenIs4] at h; omega

theorem lenIs12_pos {n : Nat} (h : lenIs12 n = true) : 0 < n := by
  simp [lenIs12] at h; rcases h with h | h <;> omega

theorem parseDatePart_some {sep : Char} {cs : List Char} {y m d : Nat} {rest : List Char}
    (h : parseDatePart sep cs = some (y, m, d, rest)) :
    (∃ a as, cs = a :: as ∧ a.isDigit = true) ∧
    (∃ pre dr, cs = pre ++ dr ++ rest ∧ dr ≠ [] ∧ ∀ c ∈ dr, c.isDigit = true) := by
  unfold parseDatePart at h
  simp only [Option.bind_eq_some] at h
  obtain ⟨⟨yv, r1⟩, hy, ⟨r2, hs1, ⟨⟨mv, r3⟩, hm, ⟨r4, hs2, ⟨⟨dv, r5⟩, hd, hfin⟩⟩⟩⟩⟩ := h
  injection hfin with hfin
  have h5 : r5 = rest := congrArg (fun q => q.2.2.2) hfin
  obtain ⟨yr, hycs, hydig, hylen⟩ := numField_some hy
  have hr1 : r1 = sep :: r2 := litChar_some hs1
  obtain ⟨mr, hmcs, hmdig, hmlen⟩ := numField_some hm
  have hr3 : r3 = sep :: r4 := litChar_some hs2
  obtain ⟨dr, hdcs, hddig, hdlen⟩ := numField_some hd
  subst h5
  constructor
  · have hpos : 0 < yr.length := lenIs4_pos hylen
    cases yr with
    | nil => simp at hpos
    | cons a as =>
      exact ⟨a, as ++ r1, by simpa using hycs, hydig a (by simp)⟩
  · refine ⟨yr ++ sep :: (mr ++ [sep]), dr, ?_, ?_, hddig⟩
    · rw [hycs, hr1, hmcs, hr3, hdcs]
      simp
    · have hpos : 0 < dr.length := lenIs12_pos hdlen
      intro hnil
      rw [hnil] at hpos
      simp at hpos

theorem parseTimePart_some {cs : List Char} {h m s : Nat}
    (hp : parseTimePart cs = some (h, m, s)) :
    ∃ pre sr, cs = pre ++ sr ∧ sr ≠ [] ∧ ∀ c ∈ sr, c.isDigit = true := by
  unfold parseTimePart at hp
  simp only [Option.bind_eq_some] at hp
  obtain ⟨r0, h0, ⟨⟨hv, r1⟩, hh, ⟨r2, hc1, ⟨⟨mv, r3⟩, hm, ⟨r4, hc2, ⟨⟨sv, r5⟩, hs, hfin⟩⟩⟩⟩⟩⟩ := hp
  obtain ⟨sp, hsp, hcs0⟩ := space1_some h0
  obtain ⟨hr, hhcs, hhdig, hhlen⟩ := numField_some hh
  have hr1 : r1 = ':' :: r2 := litChar_some hc1
  obtain ⟨mr, hmcs, hmdig, hmlen⟩ := numField_some hm
  have hr3 : r3 = ':' :: r4 := litChar_some hc2
  obtain ⟨sr, hscs, hsdig, hslen⟩ := numField_some hs
  have hr5 : r5 = [] := by
    by_contra hne
    simp [hne] at hfin
  subst hr5
  refine ⟨sp ++ hr ++ ':' :: (mr ++ [':']), sr, ?_, ?_, hsdig⟩
  · rw [hcs0, hhcs, hr1, hmcs, hr3, hscs]
    simp
  · have hpos : 0 < sr.length := lenIs12_pos hslen
    intro hnil
    rw [hnil] at hpos
    simp at hpos

theorem matchFmt_head_last {sep : Char} {t : Bool} {cs : List Char} {dt : PDateTime}
    (h : matchFmt sep t cs = some dt) :
    (∃ a, cs.head? = some a ∧ a.isDigit = true) ∧
    (∃ b, cs.getLast? = some b ∧ b.isDigit = true) := by
  unfold matchFmt at h
  simp only [Option.bind_eq_some] at h
  obtain ⟨⟨y, m, d, rest⟩, hq, hbody⟩ := h
  obtain ⟨⟨a, as, hcons, hadig⟩, ⟨pre, dr, hdec, hdrne, hdrdig⟩⟩ := parseDatePart_some hq
  have hhead : ∃ a, cs.head? = some a ∧ a.isDigit = true := ⟨a, by rw [hcons]; rfl, hadig⟩
  refine ⟨hhead, ?_⟩
  cases t with
  | false =>
    simp only [Bool.false_eq_true, if_false] at hbody
    split at hbody
    next hcond =>
      obtain ⟨hrest, -⟩ := hcond
      rw [hrest, List.append_nil] at hdec
      have hlast : cs.getLast? = dr.getLast? := by
        rw [hdec]
        exact List.getLast?_append_of_ne_nil pre hdrne
      have hsome : dr.getLast? = some (dr.getLast hdrne) :=
        List.getLast?_eq_getLast_of_ne_nil hdrne
      exact ⟨dr.getLast hdrne, by rw [hlast, hsome], hdrdig _ (List.getLast_mem hdrne)⟩
    next => cases hbody
  | true =>
    simp only [if_true] at hbody
    simp only [Option.bind_eq_some] at hbody
    obtain ⟨⟨th, tm, ts⟩, ht, -⟩ := hbody
    obtain ⟨pre2, sr, hrdec, hsrne, hsrdig⟩ := parseTimePart_some ht
    rw [hrdec] at hdec
    have hlast : cs.getLast? = sr.getLast? := by
      rw [hdec, ← List.append_assoc]
      exact List.getLast?_append_of_ne_nil _ hsrne
    have hsome : sr.getLast? = some (sr.getLast hsrne) :=
      List.getLast?_eq_getLast_of_ne_nil hsrne
    exact ⟨sr.getLast hsrne, by rw [hlast, hsome], hsrdig _ (List.getLast_mem hsrne)⟩

theorem tryFmtList_some {fs : List (Char × Bool)} {cs : List Char} {dt : PDateTime}
    (h : tryFmtList fs cs = some dt) : ∃ f ∈ fs, matchFmt f.1 f.2 cs = some dt := by
  induction fs with
  | nil => cases h
  | cons f fs ih =>
    rw [tryFmtList] at h
    cases hm : matchFmt f.1 f.2 cs with
    | some dt' =>
      rw [hm] at h
      injection h with h'
      exact ⟨f, by simp, by rw [hm, h']⟩
    | none =>
      rw [hm] at h
      obtain ⟨g, hg, hgm⟩ := ih h
      exact ⟨g, by simp [hg], hgm⟩

-- Digits are neither whitespace nor NUL, so a string whose first and last
-- characters are digits is a fixed point of the cleaning step.

theorem digit_not_space {c : Char} (h : c.isDigit = true) : pyIsSpace c = false := by
  by_contra hc
  rw [Bool.not_eq_false] at hc
  simp only [pyIsSpace, Bool.or_eq_true, beq_iff_eq] at hc
  rcases hc with ((((((((((rfl | rfl) | rfl) | rfl) | rfl) | rfl) | rfl) | rfl) | rfl) | rfl) | rfl) | rfl <;>
    exact absurd h (by decide)

theorem digit_not_null {c : Char} (h : c.isDigit = true) : (c == '\x00') = false := by
  by_contra hc
  rw [Bool.not_eq_false, beq_iff_eq] at hc
  subst hc
  exact absurd h (by decide)

theorem dropWhile_head_false {p : Char → Bool} {cs : List Char} {a : Char}
    (hh : cs.head? = some a) (hp : p a = false) : cs.dropWhile p = cs := by
  cases cs with
  | nil => cases hh
  | cons x xs =>
    injection hh with h
    subst h
    simp [List.dropWhile_cons, hp]

theorem stripEnds_fix {p : Char → Bool} {cs : List Char} {a b : Char}
    (hh : cs.head? = some a) (hpa : p a = false)
    (hl : cs.getLast? = some b) (hpb : p b = false) :
    stripEnds p cs = cs := by
  unfold stripEnds
  rw [dropWhile_head_false hh hpa]
  rw [dropWhile_head_false (by rw [List.head?_reverse]; exact hl) hpb]
  exact List.reverse_reverse cs

theorem cleanChars_fix {s : String} {a b : Char}
    (hh : s.toList.head? = some a) (ha : a.isDigit = true)
    (hl : s.toList.getLast? = some b) (hb : b.isDigit = true) :
    cleanChars s = s.toList := by
  unfold cleanChars
  rw [stripEnds_fix hh (digit_not_space ha) hl (digit_not_space hb)]
  exact stripEnds_fix hh (digit_not_null ha) hl (digit_not_null hb)

theorem parse_empty_none : parse_exif_datetime "" = none := by decide

-- The tag loop is the first-success scan over the priority list: a tag is
-- skipped when absent, empty (an empty value also fails the parse), or
-- unparseable, and the first parsed value is returned.
theorem resolveFromTags_eq_spec (ts : List Nat) (exif : Nat → Option String) :
    resolveFromTags ts exif =
      (ts.filterMap (fun t => (exif t).bind (fun v => parse_exif_datetime v))).head? := by
  induction ts with
  | nil => rfl
  | cons t ts ih =>
    rw [resolveFromTags]
    cases he : exif t with
    | none => simp [List.filterMap_cons, he, ih]
    | some v =>
      by_cases hv : v = ""
      · subst hv
        simp [List.filterMap_cons, he, ih, parse_empty_none]
      · simp only [hv, if_false]
        cases hp : parse_exif_datetime v with
        | some dt => simp [List.filterMap_cons, he, hp]
        | none => simp [List.filterMap_cons, he, hp, ih]

-- ---------------- Claim theorems ---------------- --

/-- C1: the metadata date resolver tries the three datetime tags in the fixed
priority order (original 36867, digitized 36868, generic 306), skipping a tag
that is absent, empty, or whose value fails to parse, and returns the date of
the first tag whose value parses; in particular, when the original-time tag is
present but unparseable and the digitized-time tag parses, the digitized date
is returned. -/
theorem c1_resolver_priority :
    (∀ exif : Nat → Option String,
      extract_date_from_exif_data exif =
        ((DATETIME_TAGS.filterMap
          (fun t => (exif t).bind (fun v => parse_exif_datetime v))).head?).map formatDate) ∧
    (∀ (exif : Nat → Option String) (v1 v2 : String) (dt : PDateTime),
      exif 36867 = some v1 → parse_exif_datetime v1 = none →
      exif 36868 = some v2 → parse_exif_datetime v2 = some dt →
      extract_date_from_exif_data exif = some (formatDate dt)) := by
  constructor
  · intro exif
    unfold extract_date_from_exif_data
    rw [resolveFromTags_eq_spec]
  · intro exif v1 v2 dt h1 hp1 h2 hp2
    have hv2 : v2 ≠ "" := by
      intro hv
      rw [hv, parse_empty_none] at hp2
      cases hp2
    unfold extract_date_from_exif_data DATETIME_TAGS
    rw [resolveFromTags]
    rw [h1]
    by_cases hv1 : v1 = "" <;>
      simp only [hv1, if_true, if_false, hp1] <;>
      rw [resolveFromTags] <;>
      rw [h2] <;>
      simp [hv2, hp2]

-- A concrete metadata block: the original-time tag holds garbage, the
-- digitized-time tag a valid timestamp.
def c1ExifExample : Nat → Option String := fun t =>
  if t = 36867 then some "not a date"
  else if t = 36868 then some "2023:07:16 09:00:00"
  else none

theorem c1_witness :
    extract_date_from_exif_data c1ExifExample = some (formatDate ⟨2023, 7, 16, 9, 0, 0⟩) :=
  c1_resolver_priority.2 c1ExifExample "not a date" "2023:07:16 09:00:00"
    ⟨2023, 7, 16, 9, 0, 0⟩ rfl (by decide) rfl (by decide)

/-- C2: every input that exactly matches one of the six patterns (colon,
dash or slash separated date-time, then colon, dash or slash separated
date-only, tried in that order, first match wins) yields the calendar date of
the string, time-of-day discarded; for example "2023:07:15 10:30:00",
"2023-07-15" and "2023/07/15" all yield 2023-07-15. -/
theorem c2_six_patterns :
    (∀ (s : String) (dt : PDateTime),
      tryFormats6 s.toList = some dt → dateParse s = some dt.toDate) ∧
    dateParse "2023:07:15 10:30:00" = some ⟨2023, 7, 15⟩ ∧
    dateParse "2023-07-15" = some ⟨2023, 7, 15⟩ ∧
    dateParse "2023/07/15" = some ⟨2023, 7, 15⟩ := by
  refine ⟨?_, by decide, by decide, by decide⟩
  intro s dt h
  obtain ⟨f, -, hf⟩ := tryFmtList_some h
  obtain ⟨⟨a, hh, ha⟩, ⟨b, hl, hb⟩⟩ := matchFmt_head_last hf
  have hclean : cleanChars s = s.toList := cleanChars_fix hh ha hl hb
  have hne : s.toList.isEmpty = false := by
    cases hcs : s.toList with
    | nil => rw [hcs] at hh; cases hh
    | cons x xs => rfl
  unfold dateParse parse_exif_datetime
  rw [hclean]
  simp only [hne, Bool.false_eq_true, if_false, h]
  rfl

theorem c2_witness : dateParse "2024:02:29 23:59:59" = some ⟨2024, 2, 29⟩ :=
  c2_six_patterns.1 "2024:02:29 23:59:59" ⟨2024, 2, 29, 23, 59, 59⟩ (by decide)

/-- C3: when the cleaned input matches none of the six full patterns, the
parser salvages by trying the first 10 characters and the colon-to-dash
variant against the three date-only formats; hence an input whose cleaned
first 10 characters form a valid date followed by garbage yields that leading
date, e.g. "2023:07:15\x00\x00garbage" yields 2023-07-15. -/
theorem c3_salvage :
    (∀ s : String, cleanChars s ≠ [] → tryFormats6 (cleanChars s) = none →
      parse_exif_datetime s = trySalvage (cleanChars s)) ∧
    (∀ (s : String) (dt : PDateTime), tryFormats6 (cleanChars s) = none →
      tryDateFmts SALVAGE_SEPS ((cleanChars s).take 10) = some dt →
      dateParse s = some dt.toDate) ∧
    dateParse "2023:07:15\x00\x00garbage" = some ⟨2023, 7, 15⟩ := by
  refine ⟨?_, ?_, by decide⟩
  · intro s hne h6
    unfold parse_exif_datetime
    rw [h6]
    simp [List.isEmpty_iff, hne]
  · intro s dt h6 h10
    have hne : cleanChars s ≠ [] := by
      intro hnil
      rw [hnil] at h10
      rw [(by decide : tryDateFmts SALVAGE_SEPS (List.take 10 ([] : List Char)) = none)] at h10
      cases h10
    unfold dateParse parse_exif_datetime trySalvage
    rw [h6, h10]
    simp [List.isEmpty_iff, hne]

theorem c3_witness : dateParse "2021-12-31T23:59:59junk" = some ⟨2021, 12, 31⟩ :=
  c3_salvage.2.1 "2021-12-31T23:59:59junk" ⟨2021, 12, 31, 0, 0, 0⟩ (by decide) (by decide)

/-- C5 counterexample: the cleaning step removes only surrounding NUL
characters, not embedded ones, so "2023-07-1\x005" — the valid date
"2023-07-15" with a NUL inserted inside — fails to parse even though the
NUL-free string parses. -/
theorem c5_counterexample :
    parse_exif_datetime "2023-07-1\x005" = none ∧
    parse_exif_datetime "2023-07-15" = some ⟨2023, 7, 15, 0, 0, 0⟩ :=
  ⟨by decide, by decide⟩

/-- C5 (amended): before pattern matching the parser strips surrounding
whitespace and then surrounding null characters; embedded null characters
are not removed, so a date with a null byte inserted inside it does not
parse as if the null were absent; and every empty or whitespace-only input
signals failure (returns no date) rather than raising. -/
theorem c5_cleaning_amended :
    (∀ s : String, (∀ c ∈ s.toList, pyIsSpace c = true) → parse_exif_datetime s = none) ∧
    parse_exif_datetime "  2023:07:15 10:30:00  " = some ⟨2023, 7, 15, 10, 30, 0⟩ ∧
    parse_exif_datetime "\x00\x002023:07:15\x00" = some ⟨2023, 7, 15, 0, 0, 0⟩ ∧
    parse_exif_datetime "2023-07-1\x005" = none := by
  refine ⟨?_, by decide, by decide, by decide⟩
  intro s hws
  have h1 : s.toList.dropWhile pyIsSpace = [] := List.dropWhile_eq_nil_iff.mpr hws
  have hc : cleanChars s = [] := by
    unfold cleanChars stripEnds
    rw [h1]
    rfl
  unfold parse_exif_datetime
  rw [hc]
  rfl

theorem c5_witness : parse_exif_datetime " \t " = none :=
  c5_cleaning_amended.1 " \t " (by decide)

/-- C4: each of the nine anchors resolves each axis independently to
edge-aligned-with-margin (left or top give margin; right or bottom give
image dimension minus text dimension minus margin) or centered (floor of
half the slack); in particular image 1000x800, text 100x30, bottom-right,
margin 20 gives (880, 750), and center gives (450, 385). -/
theorem c4_anchor_grid :
    (∀ w h tw th m : Int,
      calc_position "top-left" w h tw th m = (m, m) ∧
      calc_position "top-center" w h tw th m = ((w - tw).fdiv 2, m) ∧
      calc_position "top-right" w h tw th m = (w - tw - m, m) ∧
      calc_position "center-left" w h tw th m = (m, (h - th).fdiv 2) ∧
      calc_position "center" w h tw th m = ((w - tw).fdiv 2, (h - th).fdiv 2) ∧
      calc_position "center-right" w h tw th m = (w - tw - m, (h - th).fdiv 2) ∧
      calc_position "bottom-left" w h tw th m = (m, h - th - m) ∧
      calc_position "bottom-center" w h tw th m = ((w - tw).fdiv 2, h - th - m) ∧
      calc_position "bottom-right" w h tw th m = (w - tw - m, h - th - m)) ∧
    calc_position "bottom-right" 1000 800 100 30 20 = (880, 750) ∧
    (∀ m : Int, calc_position "center" 1000 800 100 30 m = (450, 385)) :=
  ⟨fun w h tw th m => ⟨rfl, rfl, rfl, rfl, rfl, rfl, rfl, rfl, rfl⟩,
   by decide, fun m => rfl⟩

/-- C8: an anchor name outside the nine known names yields exactly the
bottom-right placement for the same image size, text size and margin. -/
theorem c8_unknown_anchor (pos : String) (hpos : pos ∉ POS_CHOICES)
    (img_w img_h text_w text_h margin : Int) :
    calc_position pos img_w img_h text_w text_h margin =
      calc_position "bottom-right" img_w img_h text_w text_h margin := by
  simp only [POS_CHOICES, List.mem_cons, List.not_mem_nil, or_false, not_or] at hpos
  obtain ⟨h1, h2, h3, h4, h5, h6, h7, h8, h9⟩ := hpos
  simp [calc_position, h1, h2, h3, h4, h5, h6, h7, h8, h9]

theorem c8_witness :
    calc_position "diagonal" 1000 800 100 30 20 =
      calc_position "bottom-right" 1000 800 100 30 20 :=
  c8_unknown_anchor "diagonal" (by decide) 1000 800 100 30 20

-- A getrgb oracle that recognises nothing (every call raises).
def noRgb : List Char → Option (Int × Int × Int) := fun _ => none

/-- C6: a color string that neither yields a comma-separated integer triple
nor is accepted by the imaging collaborator's getrgb (hex or named color)
resolves to opaque white (255, 255, 255); the parser is total, so an invalid
color value cannot fail the run. -/
theorem c6_color_fallback (getrgb : List Char → Option (Int × Int × Int)) (s : String)
    (hparts : ∀ parts, mapOpt pyInt (splitOnChar ',' (stripEnds pyIsSpace s.toList)) = some parts →
      parts.length < 3)
    (hrgb : getrgb (stripEnds pyIsSpace s.toList) = none) :
    parse_color getrgb s = (255, 255, 255) := by
  unfold parse_color
  by_cases hc : (stripEnds pyIsSpace s.toList).contains ',' = true
  · simp only [hc, if_true]
    cases hm : mapOpt pyInt (splitOnChar ',' (stripEnds pyIsSpace s.toList)) with
    | none => rfl
    | some parts =>
      have hlen := hparts parts hm
      have hrgb2 : getrgb (stripEnds pyIsSpace s.data) = none := hrgb
      rcases parts with _ | ⟨a, _ | ⟨b, _ | ⟨c, t⟩⟩⟩
      · simp [hrgb, hrgb2]
      · simp [hrgb, hrgb2]
      · simp [hrgb, hrgb2]
      · exact absurd hlen (by simp only [List.length_cons]; omega)
  · simp only [Bool.not_eq_true] at hc
    simp only [hc, Bool.false_eq_true, if_false, hrgb]

theorem c6_witness : parse_color noRgb "not-a-color" = (255, 255, 255) :=
  c6_color_fallback noRgb "not-a-color"
    (fun parts hp => by
      rw [(by decide :
        mapOpt pyInt (splitOnChar ',' (stripEnds pyIsSpace "not-a-color".toList)) =
          (none : Option (List Int)))] at hp
      cases hp)
    rfl

/-- C10: a color string containing a comma whose comma-separated pieces all
parse as integers, with at least three pieces, yields exactly the first
three integers, unvalidated (values outside 0-255 pass through) and with any
further pieces ignored; e.g. "300,0,0" gives (300, 0, 0). -/
theorem c10_color_triple_passthrough (getrgb : List Char → Option (Int × Int × Int))
    (s : String) (a b c : Int) (rest : List Int)
    (hcomma : (stripEnds pyIsSpace s.toList).contains ',' = true)
    (hparts : mapOpt pyInt (splitOnChar ',' (stripEnds pyIsSpace s.toList)) =
      some (a :: b :: c :: rest)) :
    parse_color getrgb s = (a, b, c) := by
  unfold parse_color
  simp only [hcomma, if_true, hparts]

theorem c10_witness : parse_color noRgb "300,0,0" = (300, 0, 0) :=
  c10_color_triple_passthrough noRgb "300,0,0" 300 0 0 [] (by decide) (by decide)

-- Each loop iteration increments exactly one of the four counters.
theorem processFile_total (env : Env) (o : Bool) (c : Counters) (fp : String) :
    (processFile env o c fp).total = c.total + 1 := by
  unfold processFile
  repeat' split
  all_goals simp only [Counters.total]
  all_goals omega

theorem foldl_processFile_total (env : Env) (o : Bool) (fs : List String) :
    ∀ c : Counters, (fs.foldl (processFile env o) c).total = c.total + fs.length := by
  induction fs with
  | nil => intro c; simp
  | cons f fs ih =>
    intro c
    rw [List.foldl_cons, ih, processFile_total]
    simp [Nat.add_comm, Nat.add_assoc, Nat.add_left_comm]

/-- C9: every discovered file increments exactly one of the four run-level
counters (processed, skipped-no-date, skipped-exists, failed), so at the end
of the run the sum of the four counters equals the number of discovered
files. -/
theorem c9_counters_partition :
    (∀ (env : Env) (o : Bool) (c : Counters) (fp : String),
      (processFile env o c fp).total = c.total + 1) ∧
    (∀ (env : Env) (path : String) (recursive overwrite : Bool) (files : List String),
      find_images env path recursive = .ok files →
      ((runMain env path recursive overwrite).2).total = files.length) := by
  refine ⟨processFile_total, ?_⟩
  intro env path recursive overwrite files hf
  unfold runMain
  rw [hf]
  by_cases he : files.isEmpty
  · rw [List.isEmpty_iff] at he
    simp [he, Counters.total, Counters.zero]
  · have he' : files.isEmpty = false := by
      cases hb : files.isEmpty
      · rfl
      · exact absurd hb he
    simp only [he', Bool.false_eq_true, if_false]
    rw [foldl_processFile_total]
    simp [Counters.total, Counters.zero]

-- A tiny concrete run: a directory with one dated image, one image without
-- a date, and one non-image file.
def c9EnvExample : Env where
  isFile := fun p => p == "/d/a.jpg" || p == "/d/b.png" || p == "/d/notes.txt"
  isDir := fun p => p == "/d"
  listdir := fun _ => ["a.jpg", "b.png", "notes.txt"]
  walk := fun _ => [("/d", ["a.jpg", "b.png", "notes.txt"])]
  exifDate := fun p => if p == "/d/a.jpg" then some "2023-07-15" else none
  outExists := fun _ => false
  annotateOk := fun _ => true

theorem c9_witness :
    ((runMain c9EnvExample "/d" true false).2).total = 2 :=
  c9_counters_partition.2 c9EnvExample "/d" true false ["/d/a.jpg", "/d/b.png"] rfl

/-- C7: when the input path is neither an existing file nor an existing
directory, find_images signals a path-not-found error and the run exits with
code 1; when the path exists (file or directory), the run exits with code 0,
including when no supported files are found. -/
theorem c7_exit_codes (env : Env) (path : String) (recursive overwrite : Bool) :
    (env.isFile path = false → env.isDir path = false →
      find_images env path recursive = .error ("Path not found: " ++ path) ∧
      (runMain env path recursive overwrite).1 = 1) ∧
    ((env.isFile path = true ∨ env.isDir path = true) →
      (runMain env path recursive overwrite).1 = 0) := by
  constructor
  · intro hf hd
    have herr : find_images env path recursive = .error ("Path not found: " ++ path) := by
      unfold find_images
      simp [hf, hd]
    refine ⟨herr, ?_⟩
    unfold runMain
    rw [herr]
  · intro hex
    unfold runMain
    cases hfi : find_images env path recursive with
    | error e =>
      exfalso
      unfold find_images at hfi
      by_cases hf2 : env.isFile path = true
      · rw [if_pos hf2] at hfi
        cases hfi
      · have hd2 : env.isDir path = true := by
          rcases hex with hf | hd
          · exact absurd hf hf2
          · exact hd
        rw [if_neg hf2, if_pos hd2] at hfi
        split at hfi <;> cases hfi
    | ok files =>
      by_cases he : files.isEmpty <;> simp [he]

def c7EnvEmpty : Env where
  isFile := fun _ => false
  isDir := fun _ => false
  listdir := fun _ => []
  walk := fun _ => []
  exifDate := fun _ => none
  outExists := fun _ => false
  annotateOk := fun _ => false

theorem c7_witness :
    (runMain c7EnvEmpty "/missing" true false).1 = 1 ∧
    (runMain c9EnvExample "/d" true false).1 = 0 :=
  ⟨((c7_exit_codes c7EnvEmpty "/missing" true false).1 rfl rfl).2,
   (c7_exit_codes c9EnvExample "/d" true false).2 (Or.inr rfl)⟩

end PhotoExifDates
